import Mathlib

/-!
Shallow embedding of the mcp-websearch server (src/index.js).

The HTML parser (cheerio) and the URL library are external dependencies of the
program; a fetched-and-parsed document is therefore modelled as a `Doc` record
exposing exactly the queries the handlers perform on it (selector lookup, meta
tags, the anchor list), and URL resolution (`new URL(href, base).href`) is an
abstract `resolve : String → Option String` parameter, `none` modelling the
constructor throwing.  All string operations are re-implemented over `List Char`
so that every definition is kernel-computable.  JavaScript string truthiness
(`""` is falsy) is modelled by `jsOr`.
-/

namespace WebSearch

/-- JS `a || b` on strings: the empty string is falsy. -/
def jsOr (a b : String) : String := if a = "" then b else a

/-- Does the character list `hay` start with `needle`? -/
def startsWithChars : List Char → List Char → Bool
  | [], _ => true
  | _ :: _, [] => false
  | a :: as, b :: bs => a == b && startsWithChars as bs

/-- Does `hay` contain `needle` as a contiguous run? -/
def hasRun : List Char → List Char → Bool
  | needle, [] => needle.isEmpty
  | needle, c :: rest => startsWithChars needle (c :: rest) || hasRun needle rest

/-- JS `hay.includes(needle)`. -/
def strIncludes (hay needle : String) : Bool := hasRun needle.toList hay.toList

/-- JS `s.startsWith(pre)`. -/
def strStarts (s pre : String) : Bool := startsWithChars pre.toList s.toList

/-- JS `s.trim()`: strip whitespace from both ends. -/
def strTrim (s : String) : String :=
  String.mk ((((s.toList.dropWhile Char.isWhitespace).reverse).dropWhile Char.isWhitespace).reverse)

/-- JS `s.slice(0, n)`. -/
def strTake (n : Nat) (s : String) : String := String.mk (s.toList.take n)

/-- JS `s.toLowerCase()`. -/
def strToLower (s : String) : String := String.mk (s.toList.map Char.toLower)

/-- JS `c.repeat(n)` for a single character `c`. -/
def repChar (n : Nat) (c : Char) : String := String.mk (List.replicate n c)

/-- One pass of `replace(/[\t ]+/g, " ")`: a run of spaces/tabs becomes one space.
`inRun` records whether the previous character belonged to a blank run. -/
def squeezeBlanksAux (inRun : Bool) : List Char → List Char
  | [] => []
  | c :: rest =>
    if c = ' ' ∨ c = '\t' then
      if inRun then squeezeBlanksAux true rest else ' ' :: squeezeBlanksAux true rest
    else c :: squeezeBlanksAux false rest

/-- One pass of `replace(/\n{3,}/g, "\n\n")`: a run of three or more newlines
becomes exactly two.  `seen` counts the newlines already emitted in the current run. -/
def squeezeNlAux (seen : Nat) : List Char → List Char
  | [] => []
  | c :: rest =>
    if c = '\n' then
      if seen < 2 then '\n' :: squeezeNlAux (seen + 1) rest else squeezeNlAux (seen + 1) rest
    else c :: squeezeNlAux 0 rest

/-- The `trim(str, len)` helper of src/index.js:
`str.replace(/[\t ]+/g, " ").replace(/\n{3,}/g, "\n\n").trim().slice(0, len)`. -/
def jsTrim (len : Nat) (s : String) : String :=
  strTake len (strTrim (String.mk (squeezeNlAux 0 (squeezeBlanksAux false s.toList))))

/-- One pass of `replace(/\s+/g, " ")` (get_links anchor text): any whitespace
run becomes a single space. -/
def squeezeWsAux (inRun : Bool) : List Char → List Char
  | [] => []
  | c :: rest =>
    if c.isWhitespace then
      if inRun then squeezeWsAux true rest else ' ' :: squeezeWsAux true rest
    else c :: squeezeWsAux false rest

/-- JS `s.replace(/\s+/g, " ")`. -/
def collapseWs (s : String) : String := String.mk (squeezeWsAux false s.toList)

/-- The relevant observable fields of an axios error object. -/
structure JsError where
  code : Option String
  status : Option Nat
  message : String
deriving DecidableEq

/-- `parseError(e)` of src/index.js. -/
def parseError (e : JsError) : String :=
  if e.code = some "ENOTFOUND" then "Domain not found"
  else if e.code = some "ETIMEDOUT" then "Timed out"
  else if e.status = some 403 then "Forbidden (403)"
  else if e.status = some 404 then "Not found (404)"
  else if e.status = some 429 then "Rate limited"
  else e.message

/-- The retry loop of `req(url, params, tries = 2)`.  `outcome i` is the result of
the `i`-th HTTP attempt (0-based); `rem` is the number of retries still allowed
(`tries - i`), so the loop condition `i < tries` becomes `rem > 0`.  Returns the
final result, the total number of attempts made, and the list of back-off delays
(`1000 * (i + 1)` ms, the delay taken after the failed attempt `i`). -/
def reqLoopAux {α : Type} (outcome : Nat → Except JsError α) (i : Nat) :
    Nat → Except JsError α × Nat × List Nat
  | 0 =>
    match outcome i with
    | .ok d => (.ok d, i + 1, [])
    | .error e => (.error e, i + 1, [])
  | rem + 1 =>
    match outcome i with
    | .ok d => (.ok d, i + 1, [])
    | .error _ =>
      let r := reqLoopAux outcome (i + 1) rem
      (r.1, r.2.1, 1000 * (i + 1) :: r.2.2)

/-- `req` as called by the handlers: `tries = 2`, starting at attempt 0. -/
def reqModel {α : Type} (outcome : Nat → Except JsError α) : Except JsError α × Nat × List Nat :=
  reqLoopAux outcome 0 2

/-- One organic search result, after the field projection in the handler. -/
structure SRItem where
  title : String
  link : String
  snippet : Option String
deriving DecidableEq

/-- The fields of the search API response that `web_search` reads. -/
structure SearchData where
  organic_results : List SRItem
  total_results : Option String

/-- One block of `fmtResults`. -/
def fmtItem (i : Nat) (r : SRItem) : String :=
  "[" ++ toString (i + 1) ++ "] " ++ r.title ++ "\n    URL: " ++ r.link ++ "\n    "
    ++ jsOr (r.snippet.getD "") "-" ++ "\n\n"

/-- The accumulation loop of `fmtResults`. -/
def fmtResultsAux : Nat → List SRItem → String
  | _, [] => ""
  | i, r :: rest => fmtItem i r ++ fmtResultsAux (i + 1) rest

/-- `fmtResults(items)` of src/index.js. -/
def fmtResults (items : List SRItem) : String :=
  if items.isEmpty then "Nothing found." else strTrim (fmtResultsAux 0 items)

/-- An MCP tool result: one text payload plus the error flag (absent = false). -/
structure ToolResult where
  text : String
  isError : Bool
deriving DecidableEq

/-- `let q = site ? \x60site:${site} ${query}\x60 : query;` — a supplied but empty
site string is falsy in JS. -/
def upstreamQuery (query : String) (site : Option String) : String :=
  match site with
  | some s => if s = "" then query else "site:" ++ s ++ " " ++ query
  | none => query

/-- The header of the `web_search` result text (lines 133-136 of src/index.js). -/
def webSearchHeader (query : String) (site timePeriod : Option String) (page : Nat)
    (total : String) : String :=
  "Search: \"" ++ query ++ "\""
    ++ (match site with
        | some s => if s = "" then "" else " (site:" ++ s ++ ")"
        | none => "")
    ++ (match timePeriod with
        | some t => if t = "" then "" else " [" ++ t ++ "]"
        | none => "")
    ++ "\nPage " ++ toString page ++ " | ~" ++ total ++ " results\n" ++ repChar 50 '=' ++ "\n\n"

/-- The success path of the `web_search` handler. -/
def webSearchOk (query : String) (site timePeriod : Option String) (page numResults : Nat)
    (d : SearchData) : String :=
  let results := d.organic_results.take numResults
  let total := jsOr (d.total_results.getD "") "?"
  let header := webSearchHeader query site timePeriod page total
  let body := fmtResults results
  let tip :=
    if results.length < 5 then
      "\n\nTip: try page=" ++ toString (page + 1) ++ " or use ai_search for better answers"
    else ""
  header ++ body ++ tip

/-- The `web_search` handler after the API-key check: runs `req` (whose `i`-th
attempt returns `outcome i`) and formats either the results or the caught error.
Also returns the attempt count and the delay list of the request loop. -/
def webSearchRun (outcome : Nat → Except JsError SearchData) (query : String)
    (site timePeriod : Option String) (page numResults : Nat) :
    ToolResult × Nat × List Nat :=
  match reqModel outcome with
  | (.ok d, n, ds) =>
    ({ text := webSearchOk query site timePeriod page numResults d, isError := false }, n, ds)
  | (.error e, n, ds) =>
    ({ text := "Search failed: " ++ parseError e, isError := true }, n, ds)

/-- The tag of an element matched by the structured-mode query
`h1,h2,h3,h4,h5,h6,p,li,pre,blockquote`. -/
inductive HTag where
  | h (n : Nat)
  | p
  | li
  | pre
  | blockquote
deriving DecidableEq

/-- One matched element: its tag and its `$(el).text()`. -/
structure Elem where
  tag : HTag
  text : String
deriving DecidableEq

/-- The per-element body contribution of structured mode (lines 308-317):
empty trimmed text is skipped, otherwise a fixed per-tag transform applies. -/
def renderElem (el : Elem) : String :=
  let txt := strTrim el.text
  if txt = "" then ""
  else match el.tag with
    | .h n => "\n" ++ repChar n '#' ++ " " ++ txt ++ "\n\n"
    | .li => "- " ++ txt ++ "\n"
    | .pre => "```\n" ++ txt ++ "\n```\n\n"
    | .blockquote => "> " ++ txt ++ "\n\n"
    | .p => txt ++ "\n\n"

/-- The structured-mode `.each` loop: concatenation in document order. -/
def renderStructured : List Elem → String
  | [] => ""
  | el :: els => renderElem el ++ renderStructured els

/-- One anchor element: `attr("href")` (none = attribute missing) and `$(el).text()`. -/
structure Anchor where
  href : Option String
  text : String
deriving DecidableEq

/-- One collected link record `{ text, url }`. -/
structure Link where
  text : String
  url : String
deriving DecidableEq

/-- A selected content region, with the projections the handler takes of it:
its `.text()`, the structured-mode element list, its anchors, and its `.text()`
after the in-place markdown replacements (the DOM mutation of markdown mode is
abstracted as this precomputed projection). -/
structure Region where
  text : String
  structEls : List Elem
  anchors : List Anchor
  mdText : String
deriving DecidableEq

/-- A fetched, parsed document after `$(JUNK_SELECTORS).remove()`: `query sel`
is `$(sel)` (`none` when no element matches), plus the meta lookups and, for
get_links (which does not remove junk), the whole-document anchor list. -/
structure Doc where
  query : String → Option Region
  titleText : String
  metaName : String → Option String
  metaProperty : String → Option String
  timeDatetime : Option String
  allAnchors : List Anchor

/-- The ordered content-selector list of src/index.js lines 26-30. -/
def CONTENT_SELECTORS : List String :=
  ["article", "main", "[role=\x27main\x27]",
   ".post-content", ".article-content", ".entry-content",
   ".content", "#content", ".post-body", ".markdown-body"]

/-- `el.length && el.text().trim().length > 300` for a candidate selector. -/
def qualifies (doc : Doc) (sel : String) : Bool :=
  match doc.query sel with
  | some r => decide (300 < (strTrim r.text).length)
  | none => false

/-- The selector chosen by the content-selector loop (first qualifying one). -/
def findContentSel (doc : Doc) : Option String :=
  CONTENT_SELECTORS.find? (fun sel => qualifies doc sel)

/-- The region chosen by the content-selector loop; since `query` is pure, the
break of the loop with `el` equals re-querying the first qualifying selector. -/
def findContent (doc : Doc) : Option Region :=
  (findContentSel doc).bind doc.query

/-- A cheerio selection with `length == 0`: empty text, no elements. -/
def emptyRegion : Region :=
  { text := "", structEls := [], anchors := [], mdText := "" }

/-- The `$("body")` fallback region. -/
def bodyRegion (doc : Doc) : Region := (doc.query "body").getD emptyRegion

/-- Lines 290-302: caller selector if given, else the content-selector loop,
falling back to `$("body")` when nothing was selected or the selection is empty. -/
def chooseMain (doc : Doc) (csel : Option String) : Region :=
  match csel with
  | some s => (doc.query s).getD (bodyRegion doc)
  | none => (findContent doc).getD (bodyRegion doc)

/-- Line 278: `$("title").text().trim() || og:title attr || "Untitled"`. -/
def extractTitle (doc : Doc) : String :=
  jsOr (strTrim doc.titleText) (jsOr ((doc.metaProperty "og:title").getD "") "Untitled")

/-- Line 281: `meta[name=description] || og:description || ""`. -/
def extractDesc (doc : Doc) : String :=
  jsOr ((doc.metaName "description").getD "")
    (jsOr ((doc.metaProperty "og:description").getD "") "")

/-- Line 284: `meta[name=author] || ""` — a single-source chain. -/
def extractAuthor (doc : Doc) : String :=
  jsOr ((doc.metaName "author").getD "") ""

/-- Line 285: `article:published_time || time[datetime] || ""`. -/
def extractDate (doc : Doc) : String :=
  jsOr ((doc.metaProperty "article:published_time").getD "")
    (jsOr (doc.timeDatetime.getD "") "")

/-- Modelled from the spec: the two-source author chain the spec describes
(named meta tag, then the Open Graph article author tag, then empty), written
for comparison with `extractAuthor`; the code has no second source. -/
def authorTwoSource (doc : Doc) : String :=
  jsOr ((doc.metaName "author").getD "")
    (jsOr ((doc.metaProperty "article:author").getD "") "")

/-- One `map.set(l.url, l)` step of `new Map(links.map(l => [l.url, l]))`:
an existing key keeps its position but takes the new value; a new key is
appended. -/
def mapInsert (acc : List Link) (l : Link) : List Link :=
  if acc.any (fun x => x.url == l.url) then
    acc.map (fun x => if x.url == l.url then l else x)
  else acc ++ [l]

/-- `[...new Map(links.map(l => [l.url, l])).values()]`. -/
def jsMapValues (ls : List Link) : List Link := ls.foldl mapInsert []

/-- The url column of a link list. -/
def urlsOf (ls : List Link) : List String := ls.map Link.url

/-- First-occurrence deduplication of a key list, excluding keys already `seen`
(specification vocabulary for the key order of a JS Map). -/
def dedupFrom (seen : List String) : List String → List String
  | [] => []
  | k :: ks =>
    if seen.any (fun x => x == k) then dedupFrom seen ks
    else k :: dedupFrom (k :: seen) ks

/-- The last link of `ls` whose url is `u` (specification vocabulary for the
value a JS Map ends up holding at key `u`). -/
def lastWith (u : String) : List Link → Option Link
  | [] => none
  | l :: ls =>
    match lastWith u ls with
    | some x => some x
    | none => if l.url = u then some l else none

/-- The per-anchor step of the `include_links` loop of web_scrape
(lines 333-341): skip missing/fragment/javascript hrefs and empty trimmed text,
resolve, truncate the text to 80. -/
def wsProcess (resolve : String → Option String) (a : Anchor) : Option Link :=
  match a.href with
  | none => none
  | some href =>
    if href = "" ∨ (href.toList.take 1 = ['#']) ∨ strStarts href "javascript:" then none
    else
      let txt := strTrim a.text
      if txt = "" then none
      else
        match resolve href with
        | none => none
        | some abs => some { text := strTake 80 txt, url := abs }

/-- The collected link list of web_scrape. -/
def scrapeLinks (resolve : String → Option String) (anchors : List Anchor) : List Link :=
  anchors.filterMap (wsProcess resolve)

/-- Line 354: dedup by resolved url, then cap at 20. -/
def webScrapeUniq (ls : List Link) : List Link := (jsMapValues ls).take 20

/-- The links section lines `[i+1] text\n    url\n`. -/
def renderWsLinks : Nat → List Link → String
  | _, [] => ""
  | i, l :: rest =>
    "[" ++ toString (i + 1) ++ "] " ++ l.text ++ "\n    " ++ l.url ++ "\n"
      ++ renderWsLinks (i + 1) rest

/-- The extraction output modes of web_scrape. -/
inductive EMode where
  | text
  | markdown
  | structured
deriving DecidableEq

/-- The pure transform stage of the web_scrape handler (lines 274-357), from the
parsed document and the call arguments to the final output text. -/
def webScrapeOut (url : String) (doc : Doc) (resolve : String → Option String)
    (csel : Option String) (mode : EMode) (includeLinks : Bool) (maxLength : Nat) : String :=
  let title := extractTitle doc
  let desc := extractDesc doc
  let author := extractAuthor doc
  let date := extractDate doc
  let mainR := chooseMain doc csel
  let body :=
    match mode with
    | .structured => renderStructured mainR.structEls
    | .markdown => mainR.mdText
    | .text => mainR.text
  let links := if includeLinks then scrapeLinks resolve mainR.anchors else []
  let body := jsTrim maxLength body
  let out := "URL: " ++ url ++ "\nTitle: " ++ title ++ "\n"
  let out := out ++ (if desc ≠ "" then "Description: " ++ desc ++ "\n" else "")
  let out := out ++ (if author ≠ "" then "Author: " ++ author ++ "\n" else "")
  let out := out ++ (if date ≠ "" then "Date: " ++ date ++ "\n" else "")
  let out := out ++ repChar 50 '=' ++ "\n\n" ++ jsOr body "No content found."
  if includeLinks && !links.isEmpty then
    out ++ "\n\n---\nLinks:\n" ++ renderWsLinks 0 (webScrapeUniq links)
  else out

/-- The href skip test of get_links (line 396). -/
def skipHref (href : String) : Bool :=
  href == "" || (href.toList.take 1).beq ['#'] || strStarts href "javascript:"
    || strStarts href "mailto:"

/-- The displayed anchor text of get_links: collapsed, trimmed, truncated to
100, with the `"(no text)"` sentinel when empty. -/
def glDisplayText (raw : String) : String :=
  jsOr (strTake 100 (collapseWs (strTrim raw))) "(no text)"

/-- Line 404: a link passes the filter when the lowercased filter occurs in the
lowercased absolute url or in the lowercased displayed text. -/
def glKeep (f abs txt : String) : Bool :=
  strIncludes (strToLower abs) (strToLower f) || strIncludes (strToLower txt) (strToLower f)

/-- The per-anchor step of the get_links collection loop (lines 393-408). -/
def glProcess (resolve : String → Option String) (filter : Option String) (a : Anchor) :
    Option Link :=
  match a.href with
  | none => none
  | some href =>
    if skipHref href then none
    else
      match resolve href with
      | none => none
      | some abs =>
        let txt := glDisplayText a.text
        match filter with
        | some f => if glKeep f abs txt then some { text := txt, url := abs } else none
        | none => some { text := txt, url := abs }

/-- The collected (already filtered) link list of get_links. -/
def glLinks (resolve : String → Option String) (anchors : List Anchor)
    (filter : Option String) : List Link :=
  anchors.filterMap (glProcess resolve filter)

/-- Line 410: `uniq`. -/
def glUniq (ls : List Link) : List Link := jsMapValues ls

/-- Line 414: the reported `Found:` count. -/
def glFound (ls : List Link) : Nat := (glUniq ls).length

/-- Line 411: the displayed list, capped at 50. -/
def glShown (ls : List Link) : List Link := (glUniq ls).take 50

/-- The numbered link lines of the get_links output. -/
def renderGlLinks : Nat → List Link → String
  | _, [] => ""
  | i, l :: rest =>
    "[" ++ toString (i + 1) ++ "] " ++ l.text ++ "\n    " ++ l.url ++ "\n\n"
      ++ renderGlLinks (i + 1) rest

/-- The get_links handler after a successful fetch (lines 391-421). -/
def getLinksRun (url : String) (resolve : String → Option String) (doc : Doc)
    (filter : Option String) : ToolResult :=
  let links := glLinks resolve doc.allAnchors filter
  let out := "Links from: " ++ url ++ "\nFound: " ++ toString (glFound links)
    ++ (if 50 < glFound links then " (showing 50)" else "")
    ++ (match filter with
        | some f => " | filter: \"" ++ f ++ "\""
        | none => "")
    ++ "\n" ++ repChar 50 '=' ++ "\n\n" ++ renderGlLinks 0 (glShown links)
  { text := strTrim out, isError := false }

/-- Modelled from the spec: the keep-predicate C7 states — the lowercased filter
occurs in the lowercased resolved url or in the lowercased collapsed anchor
text (the raw collapsed text, not the truncated display text the code uses). -/
def specLinkKeep (f abs rawText : String) : Bool :=
  strIncludes (strToLower abs) (strToLower f)
    || strIncludes (strToLower (collapseWs (strTrim rawText))) (strToLower f)

/-- The selector list of the scrape_multiple per-URL job (line 458). -/
def SM_SELECTORS : List String := ["article", "main", ".content", "#content", "body"]

/-- The value a fulfilled scrape_multiple job settles with. -/
structure SMPage where
  url : String
  title : String
  body : String
deriving DecidableEq

/-- The per-URL job body of scrape_multiple (lines 451-461), given the fetched
document: title fallback, first present selector, truncation. -/
def smJob (u : String) (doc : Doc) (maxPer : Nat) : SMPage :=
  let title := jsOr (strTrim doc.titleText) "Untitled"
  let body := ((SM_SELECTORS.findSome? (fun sel => doc.query sel)).map
    (fun r => strTrim r.text)).getD ""
  { url := u, title := title, body := jsTrim maxPer body }

/-- One output block of scrape_multiple (lines 467-474): index, then either the
page content or the FAILED marker with the raw error message (`|| "error"`). -/
def smBlock (i : Nat) (u : String) (r : Except JsError SMPage) : String :=
  match r with
  | .ok p =>
    "[" ++ toString (i + 1) ++ "] " ++ p.title ++ "\n" ++ p.url ++ "\n"
      ++ repChar 40 '─' ++ "\n" ++ p.body ++ "\n\n"
  | .error e =>
    "[" ++ toString (i + 1) ++ "] FAILED: " ++ u ++ "\n" ++ jsOr e.message "error" ++ "\n\n"

/-- The settled results of all jobs, rendered in input order starting at index
`i`.  `fetch u` is the outcome of fetching `u` (allSettled: every job settles,
each block depends only on its own outcome). -/
def smBlocksAux (fetch : String → Except JsError Doc) (maxPer : Nat) :
    Nat → List String → List String
  | _, [] => []
  | i, u :: us =>
    smBlock i u ((fetch u).map (fun d => smJob u d maxPer))
      :: smBlocksAux fetch maxPer (i + 1) us

/-- Concatenation of the rendered blocks. -/
def concatAll : List String → String
  | [] => ""
  | s :: rest => s ++ concatAll rest

/-- The scrape_multiple handler (lines 447-477): the result is never flagged as
an error. -/
def scrapeMultiple (urls : List String) (fetch : String → Except JsError Doc)
    (maxPer : Nat) : ToolResult :=
  { text := "Multi-page scrape\n" ++ repChar 50 '=' ++ "\n\n"
      ++ concatAll (smBlocksAux fetch maxPer 0 urls),
    isError := false }

/-- A 301-character text, just over the content-selector threshold. -/
def bigText : String := repChar 301 'x'

/-- A concrete region whose trimmed text exceeds 300 characters. -/
def regionW : Region := { text := bigText, structEls := [], anchors := [], mdText := bigText }

/-- A concrete document on which only the selector `main` matches. -/
def exDoc4 : Doc :=
  { query := fun s => if s = "main" then some regionW else none,
    titleText := "",
    metaName := fun _ => none,
    metaProperty := fun _ => none,
    timeDatetime := none,
    allAnchors := [] }

/-- A concrete document with no author meta tag but an Open Graph article
author tag, and nothing else. -/
def exDocA : Doc :=
  { query := fun _ => none,
    titleText := "T",
    metaName := fun _ => none,
    metaProperty := fun s => if s = "article:author" then some "Jane" else none,
    timeDatetime := none,
    allAnchors := [] }

/-! Helper lemmas about the string model. -/

theorem str_empty_append (s : String) : "" ++ s = s := rfl

theorem str_append_empty (s : String) : s ++ "" = s := by
  cases s with
  | mk l =>
    show String.mk (l ++ []) = String.mk l
    rw [List.append_nil]

theorem str_append_assoc (a b c : String) : a ++ b ++ c = a ++ (b ++ c) := by
  cases a with
  | mk la =>
    cases b with
    | mk lb =>
      cases c with
      | mk lc =>
        show String.mk (la ++ lb ++ lc) = String.mk (la ++ (lb ++ lc))
        rw [List.append_assoc]

theorem startsWithChars_self (l : List Char) : startsWithChars l l = true := by
  induction l with
  | nil => rfl
  | cons c t ih => simp [startsWithChars, ih]

theorem hasRun_suffix (a b : List Char) : hasRun b (a ++ b) = true := by
  induction a with
  | nil =>
    cases b with
    | nil => rfl
    | cons c t => simp [hasRun, startsWithChars_self]
  | cons c a ih => simp [hasRun, ih]

theorem strIncludes_append_right (a b : String) : strIncludes (a ++ b) b = true := by
  show hasRun b.data (a ++ b).data = true
  rw [String.data_append]
  exact hasRun_suffix a.data b.data

theorem jsOr_empty_right (a : String) : jsOr a "" = a := by
  by_cases h : a = "" <;> simp [jsOr, h]

theorem renderElem_empty (el : Elem) (h : strTrim el.text = "") : renderElem el = "" := by
  simp [renderElem, h]

theorem renderStructured_append : ∀ a b : List Elem,
    renderStructured (a ++ b) = renderStructured a ++ renderStructured b
  | [], b => by
    show renderStructured b = "" ++ renderStructured b
    rw [str_empty_append]
  | e :: a, b => by
    show renderElem e ++ renderStructured (a ++ b)
      = renderElem e ++ renderStructured a ++ renderStructured b
    rw [renderStructured_append a b, str_append_assoc]

theorem smBlocks_get (fetch : String → Except JsError Doc) (maxPer : Nat) :
    ∀ (urls : List String) (k j : Nat),
      (smBlocksAux fetch maxPer k urls)[j]?
        = (urls[j]?).map (fun u => smBlock (k + j) u ((fetch u).map (fun d => smJob u d maxPer)))
  | [], k, j => by simp [smBlocksAux]
  | u :: us, k, 0 => by simp [smBlocksAux]
  | u :: us, k, j + 1 => by
    have ih := smBlocks_get fetch maxPer us (k + 1) j
    have hk : k + 1 + j = k + (j + 1) := by omega
    simp only [smBlocksAux, List.getElem?_cons_succ]
    rw [ih, hk]

theorem smBlocks_length (fetch : String → Except JsError Doc) (maxPer : Nat) :
    ∀ (urls : List String) (k : Nat),
      (smBlocksAux fetch maxPer k urls).length = urls.length
  | [], _ => rfl
  | _ :: us, k => by
    simp [smBlocksAux, smBlocks_length fetch maxPer us (k + 1)]

/-- C3: structured mode renders headings, paragraphs, list items, preformatted
blocks and blockquotes in document order with the fixed per-tag transforms
(level-N heading → N hash characters, list item → dash prefix, pre → fenced
block, blockquote → quote prefix), skipping elements with empty trimmed text;
the concrete input h2 A, p B, li C yields "## A", then "B", then "- C" in
that order. -/
theorem c3_structured :
    renderStructured [⟨.h 2, "A"⟩, ⟨.p, "B"⟩, ⟨.li, "C"⟩]
      = "\n" ++ "## A" ++ "\n\n" ++ "B" ++ "\n\n" ++ "- C" ++ "\n"
  ∧ (∀ els₁ els₂ : List Elem, ∀ el : Elem, strTrim el.text = "" →
      renderStructured (els₁ ++ el :: els₂) = renderStructured (els₁ ++ els₂))
  ∧ (∀ n : Nat, ∀ txt, strTrim txt ≠ "" →
      renderElem ⟨.h n, txt⟩ = "\n" ++ repChar n '#' ++ " " ++ strTrim txt ++ "\n\n")
  ∧ (∀ txt, strTrim txt ≠ "" → renderElem ⟨.li, txt⟩ = "- " ++ strTrim txt ++ "\n")
  ∧ (∀ txt, strTrim txt ≠ "" → renderElem ⟨.pre, txt⟩ = "```\n" ++ strTrim txt ++ "\n```\n\n")
  ∧ (∀ txt, strTrim txt ≠ "" → renderElem ⟨.blockquote, txt⟩ = "> " ++ strTrim txt ++ "\n\n")
  ∧ (∀ txt, strTrim txt ≠ "" → renderElem ⟨.p, txt⟩ = strTrim txt ++ "\n\n") := by
  refine ⟨by decide, ?_, ?_, ?_, ?_, ?_, ?_⟩
  · intro els₁ els₂ el h
    rw [renderStructured_append, renderStructured_append]
    show renderStructured els₁ ++ (renderElem el ++ renderStructured els₂)
      = renderStructured els₁ ++ renderStructured els₂
    rw [renderElem_empty el h, str_empty_append]
  · intro n txt h; simp [renderElem, h]
  · intro txt h; simp [renderElem, h]
  · intro txt h; simp [renderElem, h]
  · intro txt h; simp [renderElem, h]
  · intro txt h; simp [renderElem, h]

/-- C3 witness: the skip rule and the list-item transform at concrete inputs. -/
theorem c3_structured_witness :
    renderStructured ([⟨.h 1, "T"⟩] ++ (⟨.p, " "⟩ : Elem) :: [⟨.li, "C"⟩])
      = renderStructured ([⟨.h 1, "T"⟩] ++ [⟨.li, "C"⟩])
  ∧ renderElem ⟨.li, " C "⟩ = "- " ++ strTrim " C " ++ "\n" :=
  ⟨c3_structured.2.1 [⟨.h 1, "T"⟩] [⟨.li, "C"⟩] ⟨.p, " "⟩ (by decide),
   c3_structured.2.2.2.1 " C " (by decide)⟩

/-- C8: the query sent upstream is the literal query with a `site:` prefix
folded in exactly when a (non-empty) site is supplied, and the returned header
opens with the literal query in quotes, followed by ` (site:<site>)` exactly
when site was supplied. -/
theorem c8_site_query (query s : String) (tp : Option String) (page : Nat) (total : String)
    (hs : s ≠ "") :
    upstreamQuery query (some s) = "site:" ++ s ++ " " ++ query
  ∧ upstreamQuery query none = query
  ∧ (∃ rest, webSearchHeader query (some s) tp page total
      = ("Search: \"" ++ query ++ "\"") ++ (" (site:" ++ s ++ ")") ++ rest)
  ∧ (∃ rest, webSearchHeader query none tp page total
      = ("Search: \"" ++ query ++ "\"") ++ rest) := by
  refine ⟨by simp [upstreamQuery, hs], rfl, ?_, ?_⟩
  · refine ⟨(match tp with
      | some t => if t = "" then "" else " [" ++ t ++ "]"
      | none => "")
        ++ ("\nPage " ++ toString page ++ " | ~" ++ total ++ " results\n"
            ++ repChar 50 '=' ++ "\n\n"), ?_⟩
    simp [webSearchHeader, hs, str_append_assoc]
  · refine ⟨(match tp with
      | some t => if t = "" then "" else " [" ++ t ++ "]"
      | none => "")
        ++ ("\nPage " ++ toString page ++ " | ~" ++ total ++ " results\n"
            ++ repChar 50 '=' ++ "\n\n"), ?_⟩
    simp [webSearchHeader, str_append_empty, str_append_assoc]

/-- C8 witness: the site and no-site cases at concrete arguments. -/
theorem c8_site_query_witness :
    upstreamQuery "cats" (some "github.com") = "site:" ++ "github.com" ++ " " ++ "cats"
  ∧ upstreamQuery "cats" none = "cats" :=
  ⟨(c8_site_query "cats" "github.com" none 1 "?" (by decide)).1,
   (c8_site_query "cats" "github.com" none 1 "?" (by decide)).2.1⟩

/-- C9: the transform stage of web_scrape is a pure function of the parsed
document, the URL-resolution map and the call arguments; two runs on identical
inputs yield byte-identical output.  The embedding threads no state: this
theorem certifies that the modelled stage (lines 274-357) reads nothing but
its inputs. -/
theorem c9_determinism (url : String) (doc : Doc) (resolve : String → Option String)
    (csel : Option String) (mode : EMode) (il : Bool) (ml : Nat) (out₁ out₂ : String)
    (h₁ : webScrapeOut url doc resolve csel mode il ml = out₁)
    (h₂ : webScrapeOut url doc resolve csel mode il ml = out₂) : out₁ = out₂ :=
  h₁.symm.trans h₂

/-- C9 witness: two runs at a concrete document agree. -/
theorem c9_determinism_witness :
    webScrapeOut "http://e/" exDocA (fun _ => none) none EMode.text false 10000
      = webScrapeOut "http://e/" exDocA (fun _ => none) none EMode.text false 10000 :=
  c9_determinism "http://e/" exDocA (fun _ => none) none EMode.text false 10000 _ _ rfl rfl

/-- C2: when every HTTP attempt fails, the request loop makes exactly 3
attempts with delays of 1000 ms times the (1-based) attempt index between
successive attempts, propagates the error of the last attempt, and web_search
returns an error-flagged text result containing the parsed error label. -/
theorem c2_retry (outcome : Nat → Except JsError SearchData) (errs : Nat → JsError)
    (query : String) (site tp : Option String) (page numResults : Nat)
    (h : ∀ i, outcome i = .error (errs i)) :
    reqModel outcome = (.error (errs 2), 3, [1000, 2000])
  ∧ webSearchRun outcome query site tp page numResults
      = ({ text := "Search failed: " ++ parseError (errs 2), isError := true }, 3, [1000, 2000])
  ∧ strIncludes ("Search failed: " ++ parseError (errs 2)) (parseError (errs 2)) = true := by
  have hreq : reqModel outcome = (.error (errs 2), 3, [1000, 2000]) := by
    simp [reqModel, reqLoopAux, h 0, h 1, h 2]
  exact ⟨hreq, by simp [webSearchRun, hreq], strIncludes_append_right _ _⟩

/-- C2 witness: a DNS failure on every attempt. -/
theorem c2_retry_witness :
    reqModel (fun _ => (.error ⟨some "ENOTFOUND", none, "boom"⟩ : Except JsError SearchData))
      = (.error ⟨some "ENOTFOUND", none, "boom"⟩, 3, [1000, 2000])
  ∧ webSearchRun (fun _ => .error ⟨some "ENOTFOUND", none, "boom"⟩) "q" none none 1 10
      = ({ text := "Search failed: " ++ parseError ⟨some "ENOTFOUND", none, "boom"⟩,
           isError := true }, 3, [1000, 2000])
  ∧ strIncludes ("Search failed: " ++ parseError ⟨some "ENOTFOUND", none, "boom"⟩)
      (parseError ⟨some "ENOTFOUND", none, "boom"⟩) = true :=
  c2_retry (fun _ => .error ⟨some "ENOTFOUND", none, "boom"⟩)
    (fun _ => ⟨some "ENOTFOUND", none, "boom"⟩) "q" none none 1 10 (fun _ => rfl)

/-- C6 counterexample: the author field has no second source — on a document
with no author meta tag but an Open Graph article author tag, the code yields
the empty string while the two-source chain of the spec would yield the tag value. -/
theorem c6_author_cex :
    extractAuthor exDocA = "" ∧ authorTwoSource exDocA = "Jane"
  ∧ extractAuthor exDocA ≠ authorTwoSource exDocA := by decide

/-- C6 amended: the title falls back from the document title to the Open Graph
title to the "Untitled" sentinel; description and publish date each have a
two-source fallback chain ending in empty; the author has a single-source
chain (named meta tag, then empty). -/
theorem c6_metadata (doc : Doc) :
    (strTrim doc.titleText ≠ "" → extractTitle doc = strTrim doc.titleText)
  ∧ (strTrim doc.titleText = "" → (doc.metaProperty "og:title").getD "" ≠ "" →
      extractTitle doc = (doc.metaProperty "og:title").getD "")
  ∧ (strTrim doc.titleText = "" → (doc.metaProperty "og:title").getD "" = "" →
      extractTitle doc = "Untitled")
  ∧ ((doc.metaName "description").getD "" ≠ "" →
      extractDesc doc = (doc.metaName "description").getD "")
  ∧ ((doc.metaName "description").getD "" = "" →
      extractDesc doc = (doc.metaProperty "og:description").getD "")
  ∧ ((doc.metaProperty "article:published_time").getD "" ≠ "" →
      extractDate doc = (doc.metaProperty "article:published_time").getD "")
  ∧ ((doc.metaProperty "article:published_time").getD "" = "" →
      extractDate doc = doc.timeDatetime.getD "")
  ∧ extractAuthor doc = (doc.metaName "author").getD "" := by
  refine ⟨?_, ?_, ?_, ?_, ?_, ?_, ?_, ?_⟩
  · intro h; simp [extractTitle, jsOr, h]
  · intro h h2; simp [extractTitle, jsOr, h, h2]
  · intro h h2; simp [extractTitle, jsOr, h, h2]
  · intro h; simp [extractDesc, jsOr, h]
  · intro h
    simp only [extractDesc, h, jsOr_empty_right]
    simp [jsOr]
  · intro h; simp [extractDate, jsOr, h]
  · intro h
    simp only [extractDate, h, jsOr_empty_right]
    simp [jsOr]
  · exact jsOr_empty_right _

/-- C6 witness: title extraction on a concrete document. -/
theorem c6_metadata_witness : extractTitle exDocA = strTrim "T" :=
  (c6_metadata exDocA).1 (by decide)

/-- C7 counterexample: the filter is matched against the displayed anchor text
(truncated, with the "(no text)" sentinel), not the collapsed anchor text the
claim states: an anchor with empty text is kept by the filter "no text"
although neither its URL nor its (empty) collapsed anchor text contains it. -/
theorem c7_filter_cex :
    glLinks (fun h => some h) [{ href := some "http://x/a", text := "" }] (some "no text")
      = [{ text := "(no text)", url := "http://x/a" }]
  ∧ specLinkKeep "no text" "http://x/a" "" = false := by decide

/-- C7 amended: a processed link is kept iff the lowercased filter occurs in
the lowercased resolved URL or in the lowercased displayed anchor text (the
collapsed text truncated to 100 characters, with "(no text)" substituted when
empty); the displayed list is the URL-deduplicated list capped at 50, while
the reported Found count is the full deduplicated total. -/
theorem c7_filter (resolve : String → Option String) (a : Anchor) (href abs f : String)
    (hhref : a.href = some href) (hskip : skipHref href = false)
    (hres : resolve href = some abs) :
    (glProcess resolve (some f) a
      = if glKeep f abs (glDisplayText a.text)
        then some { text := glDisplayText a.text, url := abs } else none)
  ∧ (glKeep f abs (glDisplayText a.text)
      = (strIncludes (strToLower abs) (strToLower f)
          || strIncludes (strToLower (glDisplayText a.text)) (strToLower f)))
  ∧ (∀ ls : List Link, glShown ls = (glUniq ls).take 50)
  ∧ (∀ ls : List Link, glFound ls = (glUniq ls).length)
  ∧ (∀ ls : List Link, (glShown ls).length = min 50 (glFound ls)) := by
  refine ⟨?_, rfl, fun _ => rfl, fun _ => rfl, ?_⟩
  · simp [glProcess, hhref, hskip, hres]
  · intro ls
    simp [glShown, glFound, List.length_take]

/-- C7 witness: a link kept through the anchor-text side of the filter. -/
theorem c7_filter_witness :
    glProcess (fun h => some h) (some "docs") { href := some "http://x/d", text := "Docs" }
      = if glKeep "docs" "http://x/d" (glDisplayText "Docs")
        then some { text := glDisplayText "Docs", url := "http://x/d" } else none :=
  (c7_filter (fun h => some h) { href := some "http://x/d", text := "Docs" }
    "http://x/d" "http://x/d" "docs" rfl (by decide) rfl).1

/-- C10: scrape_multiple never flags its result as an error; the block of a failed URL
carries the raw error message (or "error" when empty), not the
human-readable label parseError would give the same condition — concretely, a
DNS failure block contains the raw message and not "Domain not found". -/
theorem c10_batch (urls : List String) (fetch : String → Except JsError Doc) (maxPer : Nat)
    (j : Nat) (u : String) (e : JsError) :
    (scrapeMultiple urls fetch maxPer).isError = false
  ∧ (urls[j]? = some u → fetch u = .error e →
      (smBlocksAux fetch maxPer 0 urls)[j]?
        = some ("[" ++ toString (j + 1) ++ "] FAILED: " ++ u ++ "\n"
            ++ jsOr e.message "error" ++ "\n\n"))
  ∧ (e.code = some "ENOTFOUND" → parseError e = "Domain not found")
  ∧ strIncludes (smBlock 1 "http://bad.invalid/"
        (.error ⟨some "ENOTFOUND", none, "getaddrinfo ENOTFOUND bad.invalid"⟩))
      "getaddrinfo ENOTFOUND bad.invalid" = true
  ∧ strIncludes (smBlock 1 "http://bad.invalid/"
        (.error ⟨some "ENOTFOUND", none, "getaddrinfo ENOTFOUND bad.invalid"⟩))
      "Domain not found" = false := by
  refine ⟨rfl, ?_, ?_, by decide, by decide⟩
  · intro hu hf
    have hg := smBlocks_get fetch maxPer urls 0 j
    rw [hu] at hg
    simpa [smBlock, hf] using hg
  · intro hc; simp [parseError, hc]

/-- C10 witness: a concrete two-URL batch where the second URL fails. -/
theorem c10_batch_witness :
    (smBlocksAux (fun _ => .error ⟨none, none, "boom"⟩) 2000 0 ["http://a/", "http://b/"])[1]?
      = some ("[" ++ toString (1 + 1) ++ "] FAILED: " ++ "http://b/" ++ "\n"
          ++ jsOr "boom" "error" ++ "\n\n") :=
  (c10_batch ["http://a/", "http://b/"] (fun _ => .error ⟨none, none, "boom"⟩) 2000 1
    "http://b/" ⟨none, none, "boom"⟩).2.1 rfl rfl

/-- C5: every per-URL job of scrape_multiple settles into its own block — the
block list has one entry per input URL, blocks appear in input order, the j-th
block depends only on the fetch outcome of the j-th URL itself (so one failure
never removes or reorders another result), failed blocks carry the FAILED
marker with the error message, and successful blocks carry the extracted,
truncated content. -/
theorem c5_multi (urls : List String) (fetch fetchB : String → Except JsError Doc)
    (maxPer : Nat) (_h1 : 1 ≤ urls.length) (_h5 : urls.length ≤ 5) :
    (smBlocksAux fetch maxPer 0 urls).length = urls.length
  ∧ (∀ j : Nat, (smBlocksAux fetch maxPer 0 urls)[j]?
        = (urls[j]?).map (fun u => smBlock j u ((fetch u).map (fun d => smJob u d maxPer))))
  ∧ (∀ (j : Nat) (u : String), urls[j]? = some u → fetch u = fetchB u →
        (smBlocksAux fetch maxPer 0 urls)[j]? = (smBlocksAux fetchB maxPer 0 urls)[j]?)
  ∧ (∀ (j : Nat) (u : String) (e : JsError), urls[j]? = some u → fetch u = .error e →
        (smBlocksAux fetch maxPer 0 urls)[j]?
          = some ("[" ++ toString (j + 1) ++ "] FAILED: " ++ u ++ "\n"
              ++ jsOr e.message "error" ++ "\n\n"))
  ∧ (∀ (j : Nat) (u : String) (d : Doc), urls[j]? = some u → fetch u = .ok d →
        (smBlocksAux fetch maxPer 0 urls)[j]?
          = some ("[" ++ toString (j + 1) ++ "] " ++ jsOr (strTrim d.titleText) "Untitled"
              ++ "\n" ++ u ++ "\n" ++ repChar 40 '─' ++ "\n"
              ++ jsTrim maxPer (((SM_SELECTORS.findSome? (fun sel => d.query sel)).map
                    (fun r => strTrim r.text)).getD "")
              ++ "\n\n"))
  ∧ (scrapeMultiple urls fetch maxPer).text
      = "Multi-page scrape\n" ++ repChar 50 '=' ++ "\n\n"
        ++ concatAll (smBlocksAux fetch maxPer 0 urls) := by
  refine ⟨smBlocks_length fetch maxPer urls 0, ?_, ?_, ?_, ?_, rfl⟩
  · intro j
    simpa using smBlocks_get fetch maxPer urls 0 j
  · intro j u hu hf
    rw [smBlocks_get fetch maxPer urls 0 j, smBlocks_get fetchB maxPer urls 0 j, hu]
    simp [hf]
  · intro j u e hu hf
    have hg := smBlocks_get fetch maxPer urls 0 j
    rw [hu] at hg
    simpa [smBlock, hf] using hg
  · intro j u d hu hf
    have hg := smBlocks_get fetch maxPer urls 0 j
    rw [hu] at hg
    simpa [smBlock, smJob, hf] using hg

/-- C5 witness: a one-URL batch whose single fetch fails still yields one block. -/
theorem c5_multi_witness :
    (smBlocksAux (fun _ => .error ⟨none, none, "x"⟩) 2000 0 ["http://a/"]).length = 1 :=
  (c5_multi ["http://a/"] (fun _ => .error ⟨none, none, "x"⟩)
    (fun _ => .error ⟨none, none, "x"⟩) 2000 (by decide) (by decide)).1

theorem findFirstSpec {α : Type} (p : α → Bool) :
    ∀ (l : List α) (x : α), l.find? p = some x →
      p x = true ∧ ∃ pre post, l = pre ++ x :: post ∧ ∀ y ∈ pre, p y = false
  | [], x, h => by simp [List.find?] at h
  | a :: t, x, h => by
    cases hc : p a
    · rw [List.find?_cons_of_neg _ (by simp [hc])] at h
      obtain ⟨hp, pre, post, heq, hpre⟩ := findFirstSpec p t x h
      refine ⟨hp, a :: pre, post, by rw [heq]; rfl, ?_⟩
      intro y hy
      rcases List.mem_cons.mp hy with h1 | h2
      · subst h1; exact hc
      · exact hpre y h2
    · rw [List.find?_cons_of_pos _ hc] at h
      cases h
      exact ⟨hc, [], t, rfl, by intro y hy; cases hy⟩

/-- C4: the content selectors are tried in the fixed order, a candidate
qualifies exactly when it matches and its trimmed text exceeds 300 characters,
the chosen selector is the first qualifying one (everything before it fails),
and the document body is selected when no candidate qualifies or when a
caller-supplied selector matches nothing. -/
theorem c4_selection (doc : Doc) :
    CONTENT_SELECTORS
      = ["article", "main", "[role=\x27main\x27]", ".post-content", ".article-content",
         ".entry-content", ".content", "#content", ".post-body", ".markdown-body"]
  ∧ (∀ s, qualifies doc s = true ↔ ∃ r, doc.query s = some r ∧ 300 < (strTrim r.text).length)
  ∧ (∀ s, findContentSel doc = some s →
      qualifies doc s = true
        ∧ ∃ pre post, CONTENT_SELECTORS = pre ++ s :: post ∧ ∀ y ∈ pre, qualifies doc y = false)
  ∧ (∀ s r, findContentSel doc = some s → doc.query s = some r → chooseMain doc none = r)
  ∧ ((∀ s ∈ CONTENT_SELECTORS, qualifies doc s = false) → chooseMain doc none = bodyRegion doc)
  ∧ (∀ s, doc.query s = none → chooseMain doc (some s) = bodyRegion doc) := by
  refine ⟨rfl, ?_, ?_, ?_, ?_, ?_⟩
  · intro s
    cases hq : doc.query s with
    | none => simp [qualifies, hq]
    | some r => simp [qualifies, hq]
  · intro s h
    exact findFirstSpec _ CONTENT_SELECTORS s h
  · intro s r hf hq
    simp [chooseMain, findContent, hf, hq]
  · intro h
    have hnone : findContentSel doc = none := by
      apply List.find?_eq_none.mpr
      intro x hx
      simp [h x hx]
    simp [chooseMain, findContent, hnone]
  · intro s h
    simp [chooseMain, h]

set_option maxRecDepth 4000 in
/-- C4 witness: on a document where only `main` matches (with 301 characters
of text), the loop selects `main` and chooseMain returns its region. -/
theorem c4_selection_witness :
    findContentSel exDoc4 = some "main" ∧ chooseMain exDoc4 none = regionW :=
  ⟨by decide, (c4_selection exDoc4).2.2.2.1 "main" regionW (by decide) (by decide)⟩

/-! Lemmas about the JS-Map deduplication model. -/

theorem urlsOf_map_replace (l : Link) : ∀ acc : List Link,
    urlsOf (acc.map (fun x => if x.url == l.url then l else x)) = urlsOf acc
  | [] => rfl
  | a :: t => by
    have ih := urlsOf_map_replace l t
    simp only [List.map_cons, urlsOf] at ih ⊢
    by_cases h : a.url = l.url
    · rw [if_pos (beq_iff_eq.mpr h), ih, h]
    · rw [if_neg (fun hb => h (beq_iff_eq.mp hb)), ih]

theorem any_eq_urls : ∀ (acc : List Link) (u : String),
    acc.any (fun x => x.url == u) = (urlsOf acc).any (fun x => x == u)
  | [], _ => rfl
  | a :: t, u => by
    simp only [List.any_cons, urlsOf, List.map_cons]
    rw [any_eq_urls t u]
    rfl

theorem urlsOf_mapInsert (acc : List Link) (l : Link) :
    urlsOf (mapInsert acc l)
      = if acc.any (fun x => x.url == l.url) then urlsOf acc else urlsOf acc ++ [l.url] := by
  unfold mapInsert
  cases hc : acc.any (fun x => x.url == l.url)
  · simp [urlsOf]
  · simpa using urlsOf_map_replace l acc

theorem dedupFrom_congr : ∀ (ks s₁ s₂ : List String),
    (∀ a, s₁.any (fun x => x == a) = s₂.any (fun x => x == a)) →
    dedupFrom s₁ ks = dedupFrom s₂ ks
  | [], _, _, _ => rfl
  | k :: t, s₁, s₂, h => by
    have hcongr := dedupFrom_congr t (k :: s₁) (k :: s₂) (fun a => by
      simp only [List.any_cons, h a])
    have hrest := dedupFrom_congr t s₁ s₂ h
    simp only [dedupFrom, h k]
    cases hc : s₂.any (fun x => x == k)
    · simp [hcongr]
    · simp [hrest]

theorem foldl_keys : ∀ (ls acc : List Link),
    urlsOf (ls.foldl mapInsert acc) = urlsOf acc ++ dedupFrom (urlsOf acc) (ls.map Link.url)
  | [], acc => by simp [dedupFrom]
  | l :: t, acc => by
    simp only [List.foldl_cons, List.map_cons, dedupFrom]
    rw [foldl_keys t (mapInsert acc l), urlsOf_mapInsert, any_eq_urls]
    cases hc : (urlsOf acc).any (fun x => x == l.url)
    · simp only [Bool.false_eq_true, if_false]
      rw [dedupFrom_congr (t.map Link.url) (urlsOf acc ++ [l.url]) (l.url :: urlsOf acc)
        (fun a => by simp [List.any_append, List.any_cons, Bool.or_comm])]
      simp [List.append_assoc]
    · simp only [if_true]

theorem dedupFrom_not_seen : ∀ (ks seen : List String) (a : String),
    a ∈ dedupFrom seen ks → seen.any (fun x => x == a) = false
  | [], _, _, h => absurd h (List.not_mem_nil _)
  | k :: t, seen, a, h => by
    rw [dedupFrom] at h
    cases hc : seen.any (fun x => x == k)
    · rw [hc] at h
      simp only [Bool.false_eq_true, if_false] at h
      rcases List.mem_cons.mp h with h1 | h2
      · subst h1; exact hc
      · have h3 := dedupFrom_not_seen t (k :: seen) a h2
        simp only [List.any_cons, Bool.or_eq_false_iff] at h3
        exact h3.2
    · rw [hc] at h
      simp only [if_true] at h
      exact dedupFrom_not_seen t seen a h

theorem dedupFrom_nodup : ∀ (ks seen : List String), (dedupFrom seen ks).Nodup
  | [], _ => List.nodup_nil
  | k :: t, seen => by
    rw [dedupFrom]
    cases hc : seen.any (fun x => x == k)
    · simp only [Bool.false_eq_true, if_false]
      refine List.nodup_cons.mpr ⟨?_, dedupFrom_nodup t (k :: seen)⟩
      intro hmem
      have h3 := dedupFrom_not_seen t (k :: seen) k hmem
      simp [List.any_cons] at h3
    · simp only [if_true]
      exact dedupFrom_nodup t seen

theorem dedupFrom_mem : ∀ (ks seen : List String) (a : String),
    a ∈ dedupFrom seen ks ↔ (a ∈ ks ∧ seen.any (fun x => x == a) = false)
  | [], seen, a => by simp [dedupFrom]
  | k :: t, seen, a => by
    rw [dedupFrom]
    cases hc : seen.any (fun x => x == k)
    · simp only [Bool.false_eq_true, if_false]
      constructor
      · intro h
        rcases List.mem_cons.mp h with h1 | h2
        · subst h1; exact ⟨List.mem_cons_self _ _, hc⟩
        · have h3 := (dedupFrom_mem t (k :: seen) a).mp h2
          refine ⟨List.mem_cons_of_mem k h3.1, ?_⟩
          have h4 := h3.2
          simp only [List.any_cons, Bool.or_eq_false_iff] at h4
          exact h4.2
      · rintro ⟨hmem, hval⟩
        by_cases hak : a = k
        · subst hak; exact List.mem_cons_self a _
        · rcases List.mem_cons.mp hmem with h1 | h2
          · exact absurd h1 hak
          · refine List.mem_cons_of_mem k ((dedupFrom_mem t (k :: seen) a).mpr ⟨h2, ?_⟩)
            simp only [List.any_cons, Bool.or_eq_false_iff]
            refine ⟨?_, hval⟩
            have : ¬(k = a) := fun e => hak e.symm
            simp [this]
    · simp only [if_true]
      constructor
      · intro h
        have h3 := (dedupFrom_mem t seen a).mp h
        exact ⟨List.mem_cons_of_mem k h3.1, h3.2⟩
      · rintro ⟨hmem, hval⟩
        rcases List.mem_cons.mp hmem with h1 | h2
        · subst h1; rw [hval] at hc; exact absurd hc (by simp)
        · exact (dedupFrom_mem t seen a).mpr ⟨h2, hval⟩

theorem lastWith_append (u : String) : ∀ a b : List Link,
    lastWith u (a ++ b)
      = match lastWith u b with
        | some x => some x
        | none => lastWith u a
  | [], b => by cases h : lastWith u b <;> simp [lastWith, h]
  | l :: t, b => by
    have ih := lastWith_append u t b
    cases h : lastWith u b <;> cases h2 : lastWith u t <;>
      simp only [h, h2] at ih <;>
      simp [List.cons_append, lastWith, ih, h2]

theorem lastWith_not_mem (u : String) : ∀ acc : List Link,
    u ∉ urlsOf acc → lastWith u acc = none
  | [], _ => rfl
  | l :: t, h => by
    have h1 : l.url ≠ u := fun e => h (by
      simp only [urlsOf, List.map_cons]
      exact List.mem_cons.mpr (Or.inl e.symm))
    have h2 : u ∉ urlsOf t := fun m => h (by
      simp only [urlsOf, List.map_cons]
      exact List.mem_cons_of_mem _ m)
    simp [lastWith, lastWith_not_mem u t h2, h1]

theorem lastWith_nodup_mem (x : Link) : ∀ acc : List Link,
    (urlsOf acc).Nodup → x ∈ acc → lastWith x.url acc = some x
  | [], _, hm => absurd hm (List.not_mem_nil x)
  | l :: t, hnd, hm => by
    simp only [urlsOf, List.map_cons, List.nodup_cons] at hnd
    rcases List.mem_cons.mp hm with h1 | h2
    · subst h1
      have hnm : x.url ∉ urlsOf t := hnd.1
      simp [lastWith, lastWith_not_mem x.url t hnm]
    · have ih := lastWith_nodup_mem x t hnd.2 h2
      simp [lastWith, ih]

theorem any_false_not_mem (acc : List Link) (u : String)
    (h : acc.any (fun x => x.url == u) = false) : u ∉ urlsOf acc := by
  intro hmem
  rw [any_eq_urls] at h
  have htrue : ((urlsOf acc).any fun x => x == u) = true :=
    List.any_eq_true.mpr ⟨u, hmem, by simp⟩
  rw [h] at htrue
  exact Bool.noConfusion htrue

theorem mapInsert_nodup (acc : List Link) (l : Link) (h : (urlsOf acc).Nodup) :
    (urlsOf (mapInsert acc l)).Nodup := by
  rw [urlsOf_mapInsert]
  cases hc : acc.any (fun x => x.url == l.url)
  · simp only [Bool.false_eq_true, if_false]
    rw [List.nodup_append_comm]
    exact List.nodup_cons.mpr ⟨any_false_not_mem acc l.url hc, h⟩
  · simp only [if_true]
    exact h

theorem lastWith_map_replace (u : String) (l : Link) (h : u ≠ l.url) : ∀ acc : List Link,
    lastWith u (acc.map (fun x => if x.url == l.url then l else x)) = lastWith u acc
  | [] => rfl
  | a :: t => by
    have ih := lastWith_map_replace u l h t
    simp only [List.map_cons, lastWith, ih]
    cases h2 : lastWith u t
    · by_cases ha : a.url = l.url
      · rw [if_pos (beq_iff_eq.mpr ha)]
        simp [ha, Ne.symm h]
      · rw [if_neg (fun hb => ha (beq_iff_eq.mp hb))]
    · simp

theorem lastWith_map_replace_self (l : Link) : ∀ acc : List Link,
    (urlsOf acc).Nodup → acc.any (fun x => x.url == l.url) = true →
    lastWith l.url (acc.map (fun x => if x.url == l.url then l else x)) = some l
  | [], _, h => by simp at h
  | a :: t, hnd, h => by
    simp only [urlsOf, List.map_cons, List.nodup_cons] at hnd
    by_cases ha : a.url = l.url
    · have ht : l.url ∉ urlsOf (t.map (fun x => if x.url == l.url then l else x)) := by
        rw [urlsOf_map_replace, ← ha]
        exact hnd.1
      simp only [List.map_cons, lastWith, lastWith_not_mem _ _ ht]
      rw [if_pos (beq_iff_eq.mpr ha)]
      simp
    · have h2 : t.any (fun x => x.url == l.url) = true := by
        simp only [List.any_cons, Bool.or_eq_true] at h
        rcases h with h | h
        · rw [beq_iff_eq] at h; exact absurd h ha
        · exact h
      have ih := lastWith_map_replace_self l t hnd.2 h2
      simp only [List.map_cons, lastWith, ih]

theorem lastWith_mapInsert_self (acc : List Link) (l : Link) (hnd : (urlsOf acc).Nodup) :
    lastWith l.url (mapInsert acc l) = some l := by
  unfold mapInsert
  cases hc : acc.any (fun x => x.url == l.url)
  · simp only [Bool.false_eq_true, if_false]
    rw [lastWith_append]
    simp [lastWith]
  · simp only [if_true]
    exact lastWith_map_replace_self l acc hnd hc

theorem lastWith_mapInsert_ne (u : String) (acc : List Link) (l : Link) (h : u ≠ l.url) :
    lastWith u (mapInsert acc l) = lastWith u acc := by
  unfold mapInsert
  cases hc : acc.any (fun x => x.url == l.url)
  · simp only [Bool.false_eq_true, if_false]
    rw [lastWith_append]
    simp [lastWith, Ne.symm h]
  · simp only [if_true]
    exact lastWith_map_replace u l h acc

theorem foldl_lastWith : ∀ (ls acc : List Link), (urlsOf acc).Nodup →
    ∀ x ∈ ls.foldl mapInsert acc, lastWith x.url (acc ++ ls) = some x
  | [], acc, hnd, x, hx => by
    simp only [List.foldl_nil] at hx
    simpa using lastWith_nodup_mem x acc hnd hx
  | l :: t, acc, hnd, x, hx => by
    simp only [List.foldl_cons] at hx
    have hrec := foldl_lastWith t (mapInsert acc l) (mapInsert_nodup acc l hnd) x hx
    rw [lastWith_append] at hrec
    rw [lastWith_append]
    cases h2 : lastWith x.url t with
    | none =>
      simp only [h2] at hrec
      by_cases hu : x.url = l.url
      · rw [hu, lastWith_mapInsert_self acc l hnd] at hrec
        cases hrec
        simp [lastWith, h2, hu]
      · rw [lastWith_mapInsert_ne x.url acc l hu] at hrec
        simp [lastWith, h2, Ne.symm hu, hrec]
    | some v =>
      simp only [h2] at hrec
      simp [lastWith, h2, hrec]

/-- C1 counterexample: two anchors resolving to the same URL with different
anchor texts — the deduplicated list keeps the first-encountered position but
the LAST-encountered anchor text (JS `Map.set` overwrites the value), so the
first-encountered entry does not appear. -/
theorem c1_dedup_cex :
    webScrapeUniq [{ text := "First", url := "http://x/a" }, { text := "Second", url := "http://x/a" }]
      = [{ text := "Second", url := "http://x/a" }]
  ∧ ({ text := "First", url := "http://x/a" } : Link)
      ∉ webScrapeUniq [{ text := "First", url := "http://x/a" },
                       { text := "Second", url := "http://x/a" }]
  ∧ glShown [{ text := "First", url := "http://x/a" }, { text := "Second", url := "http://x/a" }]
      = [{ text := "Second", url := "http://x/a" }] := by decide

/-- C1 amended: deduplication by resolved URL keeps exactly one entry per URL,
in first-occurrence order (the url column of the deduplicated list is the
first-occurrence dedup of the input url column, and is duplicate-free, with
exactly the input urls), but the surviving entry is the LAST-encountered
link for that URL, not the first; the web_scrape list is capped at 20 and the
get_links list at 50. -/
theorem c1_dedup (ls : List Link) :
    urlsOf (jsMapValues ls) = dedupFrom [] (ls.map Link.url)
  ∧ (urlsOf (jsMapValues ls)).Nodup
  ∧ (∀ u, u ∈ urlsOf (jsMapValues ls) ↔ u ∈ ls.map Link.url)
  ∧ (∀ x, x ∈ jsMapValues ls → lastWith x.url ls = some x)
  ∧ webScrapeUniq ls = (jsMapValues ls).take 20
  ∧ glShown ls = (jsMapValues ls).take 50 := by
  have hkeys : urlsOf (jsMapValues ls) = dedupFrom [] (ls.map Link.url) := by
    have h := foldl_keys ls []
    simpa [urlsOf, jsMapValues] using h
  refine ⟨hkeys, ?_, ?_, ?_, rfl, rfl⟩
  · rw [hkeys]
    exact dedupFrom_nodup _ _
  · intro u
    rw [hkeys]
    constructor
    · intro h
      exact ((dedupFrom_mem (ls.map Link.url) [] u).mp h).1
    · intro h
      exact (dedupFrom_mem (ls.map Link.url) [] u).mpr ⟨h, rfl⟩
  · intro x hx
    have h := foldl_lastWith ls [] (by simp [urlsOf]) x hx
    simpa using h

/-- C1 witness: the surviving entry for a duplicated URL is the last occurrence. -/
theorem c1_dedup_witness :
    lastWith "http://x/a"
        [⟨"First", "http://x/a"⟩, ⟨"Second", "http://x/a"⟩]
      = some ⟨"Second", "http://x/a"⟩ :=
  (c1_dedup [⟨"First", "http://x/a"⟩, ⟨"Second", "http://x/a"⟩]).2.2.2.1
    ⟨"Second", "http://x/a"⟩ (by decide)

end WebSearch
